import Mathlib

/-!
Formal model of the dataset-subsampling policy of `run.py`.

The script sub-samples a training/evaluation dataset according to a
precomputed per-example metrics table.  The model below embeds the two
policy functions `consider_ascending_order` and `subsample_dataset`, the
integer semantics of the Python expression `int(0.3319 * len(dataset))`
(evaluated in IEEE-754 double arithmetic), and the `do_eval` branch of
`main` that invokes the direction resolver unconditionally.

Python-level calls into pandas and the datasets library are modelled as
follows: a DataFrame is a list of rows; `sort_values` is a sorted
permutation of the rows (realised by insertion sort); `DataFrame.head`,
`iloc`, and `Dataset.select` are positional list operations that fail
(`Except.error`) exactly where the library raises.
-/

namespace Run

/-- A row of the training-dynamics metrics table: a `guid` (an integer
identifier into the source dataset) and the named numeric metric columns. -/
structure Row where
  guid : Int
  vals : List (String × ℚ)
deriving DecidableEq

/-- Python string conversion of an `Optional[str]` argument value:
`None` prints as `"None"` inside the f-string of the error message. -/
def pyStr : Option String → String
  | none => "None"
  | some s => s

/-- Model of `consider_ascending_order` (run.py lines 14-29).  The argument
is `Option String` because `args.metric` defaults to `None`; each branch
compares it against a string literal, and `None` matches none of them. -/
def consider_ascending_order (filtering_metric : Option String) : Except String Bool :=
  if filtering_metric = some "variability" then Except.ok false
  else if filtering_metric = some "confidence" then Except.ok true
  else if filtering_metric = some "threshold_closeness" then Except.ok false
  else if filtering_metric = some "forgetfulness" then Except.ok false
  else if filtering_metric = some "correctness" then Except.ok true
  else Except.error ("Filtering based on " ++ pyStr filtering_metric ++ " not implemented!")

/-- The supported metric names, in source order. -/
def supported_metrics : List String :=
  ["variability", "confidence", "threshold_closeness", "forgetfulness", "correctness"]

/-- The command-line arguments consumed by `subsample_dataset`. -/
structure Args where
  metric : Option String
  worst : Bool
deriving DecidableEq

/-- The effective sort direction of `subsample_dataset` (run.py lines 32-34):
resolve the base direction, then flip it when `worst` is set. -/
def effective_ascending (args : Args) : Except String Bool := do
  let is_ascending ← consider_ascending_order args.metric
  pure (if args.worst then !is_ascending else is_ascending)

/-! ### Integer semantics of `int(0.3319 * len(dataset))`

The literal `0.3319` is not representable as an IEEE-754 double; the
nearest double is `2989489432648535 / 2 ^ 53`, which is strictly below
`3319 / 10000`.  `int(0.3319 * L)` therefore truncates the rounded double
product, which can differ from the exact floor `3319 * L / 10000` (first
at `L = 10000`: 3318 instead of 3319).  The functions below compute the
double semantics exactly with natural-number arithmetic; they agree with
CPython for every length below the float overflow threshold. -/

/-- Numerator of the IEEE-754 double nearest `0.3319`, whose value is
`mantissa0_3319 / 2 ^ 53`. -/
def mantissa0_3319 : Nat := 2989489432648535

/-- Fuelled base-2 logarithm: `log2fuel fuel n` is `⌊log₂ n⌋` for `n ≥ 1`
whenever `fuel ≥ ⌊log₂ n⌋`, written with structural recursion so that it
evaluates by kernel reduction. -/
def log2fuel : Nat → Nat → Nat
  | 0, _ => 0
  | fuel + 1, n => if n ≤ 1 then 0 else log2fuel fuel (n / 2) + 1

/-- `⌊log₂ n⌋` for `n ≥ 1` (and `0` at `0`). -/
def log2 (n : Nat) : Nat := log2fuel n n

/-- Round the real number `A / 2 ^ k` (with `k ≥ 1`) to the nearest
integer, ties to even: the IEEE-754 rounding step. -/
def rndNE (A k : Nat) : Nat :=
  let q := A / 2 ^ k
  let r := A % 2 ^ k
  let half := 2 ^ (k - 1)
  if r < half then q else if half < r then q + 1 else if q % 2 = 0 then q else q + 1

/-- The integer value of the IEEE-754 double nearest a natural number `L`:
exact for `L < 2 ^ 53`, rounded to 53 significant bits above (this models
CPython converting `len(dataset)` to a float before the multiplication). -/
def floatOfNat (L : Nat) : Nat :=
  if L = 0 then 0
  else
    let e := log2 L
    if e ≤ 52 then L else rndNE L (e - 52) * 2 ^ (e - 52)

/-- Model of `num_samples = int(0.3319 * len(dataset))` (run.py line 39):
the exact truncation of the IEEE-754 double product.  Writing
`A = mantissa0_3319 * floatOfNat L`, the real product is `A / 2 ^ 53`; it
is rounded to 53 significant bits (nearest, ties to even) and truncated.
Products below `1` truncate to `0` (the largest such product, at `L = 3`,
is below `1 - 2 ^ (-54)` and cannot round up to `1`). -/
def num_samples (L : Nat) : Nat :=
  let A := mantissa0_3319 * floatOfNat L
  if A < 2 ^ 53 then 0
  else
    let e := log2 (A / 2 ^ 53)
    let m := rndNE A (e + 1)
    if 52 ≤ e then m * 2 ^ (e - 52) else m / 2 ^ (52 - e)

/-! ### The subsampler pipeline -/

/-- The metric value of a row in column `m` (only meaningful when the
column is present; `subsample_dataset` guards on that). -/
def keyOf (m : String) (row : Row) : ℚ := (row.vals.lookup m).getD 0

/-- The comparison used to sort the metrics table by column `m`:
ascending compares keys left-to-right, descending right-to-left. -/
def sortLE (ascending : Bool) (m : String) (a b : Row) : Prop :=
  if ascending then keyOf m a ≤ keyOf m b else keyOf m b ≤ keyOf m a

instance (ascending : Bool) (m : String) : DecidableRel (sortLE ascending m) := fun a b => by
  unfold sortLE
  exact inferInstance

/-- Model of `train_dy_metrics.sort_values(by=[m], ascending=...)`
(run.py lines 36-37): a permutation of the rows sorted by column `m` in
the requested direction, realised by insertion sort.  The order of rows
with equal keys is a modelling choice: the source uses the pandas default
sort kind, which fixes some deterministic order on ties but does not
document it. -/
def sort_values (table : List Row) (m : String) (ascending : Bool) : List Row :=
  List.insertionSort (sortLE ascending m) table

/-- Whether every row of the table carries column `m`; `sort_values`
raises a `KeyError` when the DataFrame lacks the column. -/
def has_column (table : List Row) (m : String) : Bool :=
  table.all fun r => (r.vals.lookup m).isSome

/-- Model of the collection loop (run.py lines 42-45): read the `guid` of
rows `0, …, n-1` of `selected` by position, failing like `iloc` does when
a position is out of bounds. -/
def collect_indices (selected : List Row) (n : Nat) : Except String (List Int) :=
  (List.range n).mapM fun idx =>
    match selected[idx]? with
    | some r => Except.ok r.guid
    | none => Except.error "IndexError: single positional indexer is out-of-bounds"

/-- Model of `dataset.select(indices)` (run.py line 47): positional
selection that fails when an index is out of range for the dataset. -/
def dataset_select {α : Type} (dataset : List α) (indices : List Int) :
    Except String (List α) :=
  indices.mapM fun (i : Int) =>
    match dataset[i.toNat]? with
    | some x => if 0 ≤ i then Except.ok x else Except.error "IndexError: index out of range"
    | none => Except.error "IndexError: index out of range"

/-- The index-producing part of `subsample_dataset` (run.py lines 36-45):
sort the table, take the first `num_samples + 1` rows (`head`), and
collect the first `num_samples` guids. -/
def subsample_indices (is_ascending : Bool) (m : String) (table : List Row) (L : Nat) :
    Except String (List Int) :=
  let sorted_scores := sort_values table m is_ascending
  let n := num_samples L
  let selected := sorted_scores.take (n + 1)
  collect_indices selected n

/-- Model of `subsample_dataset` (run.py lines 31-48): resolve the
effective direction, sort the metrics table, collect the head guids and
select them from the source dataset. -/
def subsample_dataset {α : Type} (args : Args) (train_dy_metrics : List Row)
    (dataset : List α) : Except String (List α) := do
  let is_ascending ← effective_ascending args
  let m := pyStr args.metric
  if has_column train_dy_metrics m then do
    let indices ← subsample_indices is_ascending m train_dy_metrics dataset.length
    dataset_select dataset indices
  else
    Except.error ("KeyError: " ++ m)

/-- Modelled from the spec: the index-producing step of the variant
subsampler that takes only the first `n` rows of the sorted table
(no extra `n + 1`-st row), per "preserve the literal produced output
(exactly `n` guids from the head of the sorted table)". -/
def subsample_indices_spec (is_ascending : Bool) (m : String) (table : List Row) (L : Nat) :
    Except String (List Int) :=
  let sorted_scores := sort_values table m is_ascending
  let n := num_samples L
  let selected := sorted_scores.take n
  collect_indices selected n

/-- Modelled from the spec: the variant subsampler that fetches only the
first `n` rows of the sorted table, otherwise identical to
`subsample_dataset`. -/
def subsample_dataset_spec {α : Type} (args : Args) (train_dy_metrics : List Row)
    (dataset : List α) : Except String (List α) := do
  let is_ascending ← effective_ascending args
  let m := pyStr args.metric
  if has_column train_dy_metrics m then do
    let indices ← subsample_indices_spec is_ascending m train_dy_metrics dataset.length
    dataset_select dataset indices
  else
    Except.error ("KeyError: " ++ m)

/-! ### The `do_eval` branch of `main` -/

/-- The command-line arguments that steer the `do_eval` branch. -/
structure MainArgs where
  metric : Option String
  worst : Bool
  subset : Bool
  eval_train : Bool
  max_eval_samples : Option Nat

/-- Model of the `do_eval` branch of `main` (run.py lines 171-198):
choose the evaluation split, optionally subsample it, optionally truncate
it via `select(range(max_eval_samples))` (skipped when the argument is
absent or `0`, matching Python truthiness), then resolve the sort
direction — unconditionally, even though its value is unused — and
finally featurize.  The `pdb.set_trace()` breakpoint is a no-op here. -/
def eval_branch {α β : Type} (args : MainArgs) (train_dy_metrics : List Row)
    (train_split eval_split : List α) (prepare : List α → β) : Except String β := do
  let eval_dataset := if args.eval_train then train_split else eval_split
  let eval_dataset ←
    if args.subset then
      subsample_dataset ⟨args.metric, args.worst⟩ train_dy_metrics eval_dataset
    else
      pure eval_dataset
  let eval_dataset ←
    match args.max_eval_samples with
    | some k =>
        if k = 0 then pure eval_dataset
        else dataset_select eval_dataset ((List.range k).map Int.ofNat)
    | none => pure eval_dataset
  let is_ascending0 ← consider_ascending_order args.metric
  let _is_ascending := if args.worst then !is_ascending0 else is_ascending0
  pure (prepare eval_dataset)

/-! ### Concrete instances used by witnesses and the counterexample -/

/-- The metrics table of the concrete scenario in the spec: guids 0-9 with
confidence values 0.9, 0.1, 0.5, 0.3, 0.8, 0.2, 0.7, 0.6, 0.4, 0.0. -/
def tableC6 : List Row :=
  [⟨0, [("confidence", mkRat 9 10)]⟩, ⟨1, [("confidence", mkRat 1 10)]⟩,
   ⟨2, [("confidence", mkRat 5 10)]⟩, ⟨3, [("confidence", mkRat 3 10)]⟩,
   ⟨4, [("confidence", mkRat 8 10)]⟩, ⟨5, [("confidence", mkRat 2 10)]⟩,
   ⟨6, [("confidence", mkRat 7 10)]⟩, ⟨7, [("confidence", mkRat 6 10)]⟩,
   ⟨8, [("confidence", mkRat 4 10)]⟩, ⟨9, [("confidence", mkRat 0 10)]⟩]

/-- A 3400-row metrics table (guid `i`, confidence `i`) for a source
dataset of length 10000: enough rows for the claimed 3319-example
subsample, yet the code selects only 3318. -/
def tableBig : List Row :=
  (List.range 3400).map fun (i : Nat) => ⟨(i : Int), [("confidence", (i : ℚ))]⟩

/-- A source dataset of length 10000 (the examples are their own indices). -/
def dsBig : List Nat := List.range 10000

/-! ### Helper lemmas on the `Except` monad and `mapM` -/

theorem ok_bind {γ δ : Type} (a : γ) (f : γ → Except String δ) :
    (Except.ok a : Except String γ) >>= f = f a := rfl

theorem error_bind {γ δ : Type} (e : String) (f : γ → Except String δ) :
    (Except.error e : Except String γ) >>= f = Except.error e := rfl

theorem bind_ok_elim {γ δ : Type} {x : Except String γ} {f : γ → Except String δ}
    {out : δ} (h : x >>= f = Except.ok out) :
    ∃ a, x = Except.ok a ∧ f a = Except.ok out := by
  cases x with
  | error e => rw [error_bind] at h; cases h
  | ok a => exact ⟨a, rfl, h⟩

theorem mapM_ok_length {γ δ : Type} :
    ∀ (l : List γ) (f : γ → Except String δ) (out : List δ),
      l.mapM f = Except.ok out → out.length = l.length := by
  intro l
  induction l with
  | nil =>
    intro f out h
    simp only [List.mapM_nil] at h
    cases h
    rfl
  | cons a l ih =>
    intro f out h
    rw [List.mapM_cons] at h
    obtain ⟨x, hx, h2⟩ := bind_ok_elim h
    obtain ⟨xs, hxs, h3⟩ := bind_ok_elim h2
    cases h3
    simp [ih f xs hxs]

theorem mapM_ok_of_forall {γ δ : Type} :
    ∀ (l : List γ) (f : γ → Except String δ),
      (∀ x ∈ l, ∃ y, f x = Except.ok y) → ∃ out, l.mapM f = Except.ok out := by
  intro l
  induction l with
  | nil => exact fun f _ => ⟨[], rfl⟩
  | cons a l ih =>
    intro f h
    obtain ⟨y, hy⟩ := h a (List.mem_cons_self a l)
    obtain ⟨out, hout⟩ := ih f fun x hx => h x (List.mem_cons_of_mem a hx)
    exact ⟨y :: out, by rw [List.mapM_cons, hy, ok_bind, hout, ok_bind]; rfl⟩

theorem mapM_congr_mem {γ δ : Type} :
    ∀ (l : List γ) (f g : γ → Except String δ),
      (∀ x ∈ l, f x = g x) → l.mapM f = l.mapM g := by
  intro l
  induction l with
  | nil => intro f g _; rfl
  | cons a l ih =>
    intro f g h
    rw [List.mapM_cons, List.mapM_cons, h a (List.mem_cons_self a l),
      ih f g fun x hx => h x (List.mem_cons_of_mem a hx)]

/-- Success characterisation of the collection loop: when it returns a
value, the positions `0, …, n-1` were all in bounds and the value is the
guid column of the first `n` rows. -/
theorem collect_indices_ok (l : List Row) :
    ∀ (n : Nat) (out : List Int), collect_indices l n = Except.ok out →
      n ≤ l.length ∧ out = (l.take n).map Row.guid := by
  intro n
  induction n with
  | zero =>
    intro out h
    unfold collect_indices at h
    simp only [List.range_zero, List.mapM_nil] at h
    cases h
    simp
  | succ n ih =>
    intro out h
    unfold collect_indices at h
    rw [List.range_succ, List.mapM_append] at h
    obtain ⟨xs, hxs, h2⟩ := bind_ok_elim h
    obtain ⟨hlen, hval⟩ := ih xs hxs
    obtain ⟨ys, hys, h3⟩ := bind_ok_elim h2
    cases h3
    simp only [List.mapM_cons, List.mapM_nil, pure_bind] at hys
    obtain ⟨y, hy, h4⟩ := bind_ok_elim hys
    cases hget : l[n]? with
    | none =>
      rw [hget] at hy
      simp at hy
    | some r =>
      rw [hget] at hy
      have hy2 : Except.ok r.guid = Except.ok y := hy
      cases hy2
      have h5 : [r.guid] = ys := by
        have h4b : Except.ok [r.guid] = Except.ok ys := h4
        cases h4b
        rfl
      have hn : n < l.length := by
        obtain ⟨hlt, -⟩ := List.getElem?_eq_some.mp hget
        exact hlt
      refine ⟨hn, ?_⟩
      rw [List.take_succ, hget, List.map_append, hval, ← h5]
      rfl

/-- Forward evaluation of the collection loop when `n` positions exist. -/
theorem collect_indices_take (l : List Row) :
    ∀ n : Nat, n ≤ l.length →
      collect_indices l n = Except.ok ((l.take n).map Row.guid) := by
  intro n
  induction n with
  | zero => intro _; rfl
  | succ n ih =>
    intro h
    have hn : n < l.length := h
    unfold collect_indices
    rw [List.range_succ, List.mapM_append]
    have hprev : collect_indices l n = Except.ok ((l.take n).map Row.guid) :=
      ih (Nat.le_of_lt hn)
    unfold collect_indices at hprev
    rw [hprev, ok_bind]
    simp only [List.mapM_cons, List.mapM_nil, List.getElem?_eq_getElem hn, ok_bind]
    rw [List.take_succ, List.getElem?_eq_getElem hn, List.map_append]
    rfl

/-- `sort_values` permutes the table. -/
theorem sort_values_perm (table : List Row) (m : String) (ascending : Bool) :
    (sort_values table m ascending).Perm table :=
  List.perm_insertionSort _ _

/-- Evaluation of the index-producing step when the table has at least
`num_samples L` rows: the guids of the first `num_samples L` sorted rows,
in order.  The extra `head` row beyond position `num_samples L` is never
read. -/
theorem subsample_indices_ok (is_ascending : Bool) (m : String) (table : List Row) (L : Nat)
    (h : num_samples L ≤ table.length) :
    subsample_indices is_ascending m table L =
      Except.ok
        (((sort_values table m is_ascending).take (num_samples L)).map Row.guid) := by
  unfold subsample_indices
  have hlen : (sort_values table m is_ascending).length = table.length :=
    (sort_values_perm table m is_ascending).length_eq
  have hle : num_samples L ≤ ((sort_values table m is_ascending).take (num_samples L + 1)).length := by
    rw [List.length_take, hlen]
    omega
  rw [collect_indices_take _ _ hle, List.take_take]
  have : min (num_samples L) (num_samples L + 1) = num_samples L := by omega
  rw [this]

/-- `dataset.select` succeeds on in-range indices and preserves count. -/
theorem dataset_select_ok {α : Type} (ds : List α) (inds : List Int)
    (h : ∀ i ∈ inds, 0 ≤ i ∧ i.toNat < ds.length) :
    ∃ out, dataset_select ds inds = Except.ok out ∧ out.length = inds.length := by
  have h2 : ∀ i ∈ inds, ∃ y,
      (match ds[i.toNat]? with
        | some x => if 0 ≤ i then Except.ok x
            else Except.error "IndexError: index out of range"
        | none => (Except.error "IndexError: index out of range" : Except String α)) =
        Except.ok y := by
    intro i hi
    obtain ⟨h0, hlt⟩ := h i hi
    rw [List.getElem?_eq_getElem hlt]
    exact ⟨ds[i.toNat], by simp [h0]⟩
  obtain ⟨out, hout⟩ := mapM_ok_of_forall inds _ h2
  exact ⟨out, hout, mapM_ok_length inds _ out hout⟩

/-- `dataset.select(range(k))` succeeds when `k` is within bounds. -/
theorem dataset_select_range_ok {α : Type} (ds : List α) (k : Nat) (h : k ≤ ds.length) :
    ∃ out, dataset_select ds ((List.range k).map Int.ofNat) = Except.ok out := by
  have hmem : ∀ i ∈ (List.range k).map Int.ofNat, 0 ≤ i ∧ i.toNat < ds.length := by
    intro i hi
    obtain ⟨j, hj, rfl⟩ := List.mem_map.mp hi
    have hjk : j < k := List.mem_range.mp hj
    exact ⟨Int.ofNat_nonneg j, Nat.lt_of_lt_of_le hjk h⟩
  obtain ⟨out, hout, -⟩ := dataset_select_ok ds ((List.range k).map Int.ofNat) hmem
  exact ⟨out, hout⟩

/-- Success of the whole subsampler: with a resolvable metric, the metric
column present, at least `num_samples L` metric rows, and in-range guids,
`subsample_dataset` returns a dataset of exactly `num_samples L` examples. -/
theorem subsample_dataset_ok {α : Type} (args : Args) (b : Bool) (table : List Row)
    (ds : List α)
    (hdir : consider_ascending_order args.metric = Except.ok b)
    (hcol : has_column table (pyStr args.metric) = true)
    (hn : num_samples ds.length ≤ table.length)
    (hg : ∀ r ∈ table, 0 ≤ r.guid ∧ r.guid < (ds.length : Int)) :
    ∃ out, subsample_dataset args table ds = Except.ok out ∧
      out.length = num_samples ds.length := by
  have hea : effective_ascending args = Except.ok (if args.worst then !b else b) := by
    unfold effective_ascending
    rw [hdir]
    rfl
  unfold subsample_dataset
  rw [hea, ok_bind, if_pos hcol, subsample_indices_ok _ _ _ _ hn, ok_bind]
  set sorted := sort_values table (pyStr args.metric) (if args.worst then !b else b) with hsorted
  have hmem : ∀ i ∈ (sorted.take (num_samples ds.length)).map Row.guid,
      0 ≤ i ∧ i.toNat < ds.length := by
    intro i hi
    obtain ⟨r, hr, rfl⟩ := List.mem_map.mp hi
    have hrt : r ∈ table :=
      (sort_values_perm table (pyStr args.metric) _).mem_iff.mp
        (List.take_subset _ _ hr)
    obtain ⟨h0, hlt⟩ := hg r hrt
    omega
  obtain ⟨out, hout, hlen⟩ := dataset_select_ok ds _ hmem
  refine ⟨out, hout, ?_⟩
  rw [hlen, List.length_map, List.length_take]
  have : sorted.length = table.length :=
    (sort_values_perm table (pyStr args.metric) _).length_eq
  omega

/-! ### The claims -/

/-- C2: `consider_ascending_order` maps each of the five supported metric
names to the documented boolean: variability ↦ false, confidence ↦ true,
threshold_closeness ↦ false, forgetfulness ↦ false, correctness ↦ true. -/
theorem consider_ascending_order_on_supported :
    consider_ascending_order (some "variability") = Except.ok false ∧
    consider_ascending_order (some "confidence") = Except.ok true ∧
    consider_ascending_order (some "threshold_closeness") = Except.ok false ∧
    consider_ascending_order (some "forgetfulness") = Except.ok false ∧
    consider_ascending_order (some "correctness") = Except.ok true :=
  ⟨rfl, rfl, rfl, rfl, rfl⟩

/-- C3: for every metric name outside the five supported ones,
`consider_ascending_order` produces the "not implemented" error and no
boolean value: there is no fallback direction. -/
theorem consider_ascending_order_unsupported (s : String)
    (h : s ∉ supported_metrics) :
    consider_ascending_order (some s) =
      Except.error ("Filtering based on " ++ s ++ " not implemented!") := by
  have h1 : s ≠ "variability" := fun hs => h (by rw [hs]; simp [supported_metrics])
  have h2 : s ≠ "confidence" := fun hs => h (by rw [hs]; simp [supported_metrics])
  have h3 : s ≠ "threshold_closeness" := fun hs => h (by rw [hs]; simp [supported_metrics])
  have h4 : s ≠ "forgetfulness" := fun hs => h (by rw [hs]; simp [supported_metrics])
  have h5 : s ≠ "correctness" := fun hs => h (by rw [hs]; simp [supported_metrics])
  simp [consider_ascending_order, pyStr, h1, h2, h3, h4, h5]

/-- Witness for C3 at the concrete unsupported name `"loss"`. -/
theorem consider_ascending_order_unsupported_witness :
    "loss" ∉ supported_metrics ∧
      consider_ascending_order (some "loss") =
        Except.error ("Filtering based on " ++ "loss" ++ " not implemented!") :=
  ⟨by decide, consider_ascending_order_unsupported "loss" (by decide)⟩

/-- C4: for every metric name resolved to a base direction `b`, the
effective direction used by `subsample_dataset` with `worst = true` is the
logical negation of the one used with `worst = false`. -/
theorem effective_ascending_worst_negates (m : Option String) (b : Bool)
    (h : consider_ascending_order m = Except.ok b) :
    effective_ascending ⟨m, true⟩ = Except.ok (!b) ∧
      effective_ascending ⟨m, false⟩ = Except.ok b := by
  constructor <;> · unfold effective_ascending; rw [h]; rfl

/-- Witness for C4 at the concrete supported metric `"confidence"`. -/
theorem effective_ascending_worst_negates_witness :
    effective_ascending ⟨some "confidence", true⟩ = Except.ok (!true) ∧
      effective_ascending ⟨some "confidence", false⟩ = Except.ok true :=
  effective_ascending_worst_negates (some "confidence") true rfl

/-- The index-producing step reads none of the guids beyond position
`num_samples L - 1`, so fetching `num_samples L + 1` rows or only
`num_samples L` rows makes no difference. -/
theorem subsample_indices_eq_take_n (is_ascending : Bool) (m : String)
    (table : List Row) (L : Nat) :
    subsample_indices is_ascending m table L =
      subsample_indices_spec is_ascending m table L := by
  unfold subsample_indices subsample_indices_spec collect_indices
  apply mapM_congr_mem
  intro idx hidx
  have h1 : idx < num_samples L := List.mem_range.mp hidx
  rw [List.getElem?_take_of_lt (by omega : idx < num_samples L + 1),
    List.getElem?_take_of_lt h1]

/-- C5: `subsample_dataset` fetches `num_samples + 1` rows of the sorted
table but collects only the first `num_samples` guids, so its output is
identical, on every input, to the variant that fetches only `num_samples`
rows: the extra fetched row never influences the returned dataset. -/
theorem subsample_dataset_extra_row_unused {α : Type} (args : Args)
    (table : List Row) (ds : List α) :
    subsample_dataset args table ds = subsample_dataset_spec args table ds := by
  unfold subsample_dataset subsample_dataset_spec
  simp only [subsample_indices_eq_take_n]

/-- C6: on the concrete scenario of the spec (10 rows, guids 0-9, confidence
values 0.9, 0.1, 0.5, 0.3, 0.8, 0.2, 0.7, 0.6, 0.4, 0.0), the subsampler
selects guids `[9, 1, 5]` with `worst = false` and `[0, 4, 6]` with
`worst = true`, in that order. -/
theorem subsample_dataset_scenario :
    subsample_dataset ⟨some "confidence", false⟩ tableC6 (List.range 10) =
        Except.ok [9, 1, 5] ∧
      subsample_dataset ⟨some "confidence", true⟩ tableC6 (List.range 10) =
        Except.ok [0, 4, 6] :=
  ⟨by rfl, by rfl⟩

/-- C7: `subsample_dataset` is deterministic — two invocations with equal
selection policy, equal metrics table (same rows in the same order) and
equal source dataset return equal outputs.  The model is a pure function
of its three inputs, mirroring the absence of any randomness or ambient
mutable state in the source. -/
theorem subsample_dataset_deterministic {α : Type} (a1 a2 : Args)
    (t1 t2 : List Row) (d1 d2 : List α)
    (ha : a1 = a2) (ht : t1 = t2) (hd : d1 = d2) :
    subsample_dataset a1 t1 d1 = subsample_dataset a2 t2 d2 := by
  rw [ha, ht, hd]

/-- Witness for C7 at the concrete scenario inputs. -/
theorem subsample_dataset_deterministic_witness :
    subsample_dataset ⟨some "confidence", false⟩ tableC6 (List.range 10) =
      subsample_dataset ⟨some "confidence", false⟩ tableC6 (List.range 10) :=
  subsample_dataset_deterministic _ _ _ _ _ _ rfl rfl rfl

/-- C9: when the metrics table carries pairwise-distinct guids that all
lie in `range L` (the data-model assumption that `guid` values are valid
positional indices, one row per example), the selected guid sequence has
no duplicates and every selected guid `i` satisfies `0 ≤ i < L`. -/
theorem subsample_indices_nodup_in_range (is_ascending : Bool) (m : String)
    (table : List Row) (L : Nat) (inds : List Int)
    (hg : ∀ r ∈ table, 0 ≤ r.guid ∧ r.guid < (L : Int))
    (hnd : (table.map Row.guid).Nodup)
    (hok : subsample_indices is_ascending m table L = Except.ok inds) :
    inds.Nodup ∧ ∀ i ∈ inds, 0 ≤ i ∧ i < (L : Int) := by
  unfold subsample_indices at hok
  obtain ⟨-, hval⟩ := collect_indices_ok _ _ _ hok
  subst hval
  have hperm :
      ((sort_values table m is_ascending).map Row.guid).Perm (table.map Row.guid) :=
    (sort_values_perm table m is_ascending).map Row.guid
  have hsub :
      ((((sort_values table m is_ascending).take (num_samples L + 1)).take
          (num_samples L)).map Row.guid).Sublist
        ((sort_values table m is_ascending).map Row.guid) :=
    ((List.take_sublist _ _).trans (List.take_sublist _ _)).map Row.guid
  constructor
  · exact List.Nodup.sublist hsub (hperm.nodup_iff.mpr hnd)
  · intro i hi
    obtain ⟨r, hr, rfl⟩ := List.mem_map.mp hi
    have hrt : r ∈ table :=
      (sort_values_perm table m is_ascending).mem_iff.mp
        (List.take_subset _ _ (List.take_subset _ _ hr))
    exact hg r hrt

/-- Witness for C9 at the concrete scenario table. -/
theorem subsample_indices_nodup_in_range_witness :
    ([9, 1, 5] : List Int).Nodup ∧
      ∀ i ∈ ([9, 1, 5] : List Int), 0 ≤ i ∧ i < ((10 : Nat) : Int) :=
  subsample_indices_nodup_in_range true "confidence" tableC6 10 [9, 1, 5]
    (by decide) (by decide) (by rfl)

/-- C10: in the `do_eval` branch, `consider_ascending_order(args.metric)`
runs unconditionally — even with the subset flag absent and the direction
unused — so every such run with no `--metric` argument fails with the
"not implemented" error, for every featurization function (the
evaluation dataset is never featurized). -/
theorem eval_branch_raises {α β : Type} (args : MainArgs) (table : List Row)
    (train_split eval_split : List α) (prepare : List α → β)
    (hm : args.metric = none) (hs : args.subset = false)
    (hk : ∀ k, args.max_eval_samples = some k →
      k ≤ (if args.eval_train then train_split else eval_split).length) :
    eval_branch args table train_split eval_split prepare =
      Except.error "Filtering based on None not implemented!" := by
  unfold eval_branch
  rw [hs, hm]
  rw [if_neg Bool.false_ne_true, pure_bind]
  cases hmax : args.max_eval_samples with
  | none =>
    dsimp only
    rfl
  | some k =>
    cases k with
    | zero =>
      dsimp only
      rfl
    | succ k2 =>
      dsimp only
      obtain ⟨v, hv⟩ :=
        dataset_select_range_ok (if args.eval_train then train_split else eval_split)
          (k2 + 1) (hk (k2 + 1) hmax)
      rw [if_neg (Nat.succ_ne_zero k2), hv, ok_bind]
      rfl

/-- Witness for C10 at a concrete argument vector with `metric = None`. -/
theorem eval_branch_raises_witness :
    eval_branch (⟨none, false, false, false, none⟩ : MainArgs) [] [0] [1]
        (fun l => l.length) =
      Except.error "Filtering based on None not implemented!" :=
  eval_branch_raises _ _ _ _ _ rfl rfl (fun _ hk => Option.noConfusion hk)

/-- C1 (amended): for every source dataset of length `L > 0` whose
metrics table has the metric column, at least `num_samples L` rows and
in-range guids, `subsample_dataset` returns a dataset of exactly
`num_samples L` examples, where `num_samples L` is the truncated IEEE-754
double product `int(0.3319 * L)` — not the exact rational floor
`⌊0.3319 × L⌋`, from which it differs (first at `L = 10000`). -/
theorem subsample_dataset_length {α : Type} (args : Args) (b : Bool)
    (table : List Row) (ds : List α) (hL : 0 < ds.length)
    (hdir : consider_ascending_order args.metric = Except.ok b)
    (hcol : has_column table (pyStr args.metric) = true)
    (hn : num_samples ds.length ≤ table.length)
    (hg : ∀ r ∈ table, 0 ≤ r.guid ∧ r.guid < (ds.length : Int)) :
    ∃ out, subsample_dataset args table ds = Except.ok out ∧
      out.length = num_samples ds.length :=
  subsample_dataset_ok args b table ds hdir hcol hn hg

/-- Witness for C1 at the concrete scenario inputs (`L = 10`, where
`num_samples 10 = 3` agrees with the exact floor). -/
theorem subsample_dataset_length_witness :
    ∃ out,
      subsample_dataset ⟨some "confidence", false⟩ tableC6 (List.range 10) =
          Except.ok out ∧
        out.length = num_samples (List.range 10).length :=
  subsample_dataset_length ⟨some "confidence", false⟩ true tableC6 (List.range 10)
    (by decide) rfl rfl (by decide) (by decide)

/-- C1 counterexample: for the dataset of length 10000 and a metrics
table with 3400 rows (more than the 3319 the claim requires),
`subsample_dataset` succeeds but returns a dataset whose length differs
from the exact mathematical floor `⌊0.3319 × 10000⌋ = 3319`: it returns
`int(0.3319 * 10000) = 3318` examples. -/
theorem subsample_dataset_length_counterexample :
    ∃ out, subsample_dataset ⟨some "confidence", false⟩ tableBig dsBig =
        Except.ok out ∧
      (out.length : Int) ≠ ⌊(3319 : ℚ) / 10000 * ((10000 : Nat) : ℚ)⌋ := by
  have hdir : consider_ascending_order (some "confidence") = Except.ok true := rfl
  have hds : dsBig.length = 10000 := by simp [dsBig]
  have hcol : has_column tableBig "confidence" = true := by
    unfold has_column tableBig
    rw [List.all_eq_true]
    intro r hr
    obtain ⟨i, -, rfl⟩ := List.mem_map.mp hr
    rfl
  have hnum : num_samples 10000 = 3318 := by decide
  have hn : num_samples dsBig.length ≤ tableBig.length := by
    rw [hds, hnum]
    have h2 : tableBig.length = 3400 := by
      unfold tableBig
      rw [List.length_map, List.length_range]
    omega
  have hg : ∀ r ∈ tableBig, 0 ≤ r.guid ∧ r.guid < (dsBig.length : Int) := by
    intro r hr
    rw [hds]
    unfold tableBig at hr
    obtain ⟨i, hi, rfl⟩ := List.mem_map.mp hr
    have hlt : i < 3400 := List.mem_range.mp hi
    dsimp only
    refine ⟨?_, ?_⟩ <;> omega
  obtain ⟨out, h1, h2⟩ :=
    subsample_dataset_ok ⟨some "confidence", false⟩ true tableBig dsBig hdir hcol hn hg
  refine ⟨out, h1, ?_⟩
  rw [h2, hds, hnum]
  have h4 : (3319 : ℚ) / 10000 * ((10000 : Nat) : ℚ) = (3319 : ℚ) := by norm_num
  rw [h4]
  have h5 : ⌊(3319 : ℚ)⌋ = (3319 : Int) := by
    rw [show (3319 : ℚ) = ((3319 : Int) : ℚ) by norm_num]
    exact Int.floor_intCast 3319
  rw [h5]
  decide

end Run
